import Mathlib

/-!
Verification development for the miden-node block producer.

The data model and operations below are shallowly embedded from the
repository sources (`block-producer/src/store/mod.rs`,
`block-producer/src/errors.rs`, `block-producer/src/lib.rs`).  Components
whose implementation files are not part of the source tree (the state
view's `verify_tx`, `BlockWitness::new`, `BlockProver::prove`,
`TransactionBatch::new`) are modelled from the specification, constrained
by the tests that ship with the repository
(`state_view/tests/verify_tx.rs`, `block_builder/prover/tests.rs`).
-/

namespace MidenNode

/-- Decidable equality for fallible results, used to evaluate the model on
concrete inputs. -/
instance {ε α : Type} [DecidableEq ε] [DecidableEq α] : DecidableEq (Except ε α) := fun
  | .ok a, .ok b =>
    if h : a = b then isTrue (by rw [h]) else isFalse (by intro hc; cases hc; exact h rfl)
  | .ok _, .error _ => isFalse (by intro h; cases h)
  | .error _, .ok _ => isFalse (by intro h; cases h)
  | .error e, .error f =>
    if h : e = f then isTrue (by rw [h]) else isFalse (by intro hc; cases hc; exact h rfl)

-- BASIC DATA MODEL
-- =================================================================================================

/-- Account identifier: an opaque 64-bit-equivalent, totally ordered value. -/
abbrev AccountId := Nat

/-- Fixed-width cryptographic digest made of four field elements; equality by value. -/
structure Digest where
  w0 : Nat
  w1 : Nat
  w2 : Nat
  w3 : Nat
deriving DecidableEq, Repr

/-- The distinguished all-default digest (`Digest::default()` in the source),
meaning "absent / new account". -/
def Digest.zero : Digest := ⟨0, 0, 0, 0⟩

/-- A nullifier is a digest identifying a spent note. -/
abbrev Nullifier := Digest

/-- A created-note commitment: the pair of digests stored as two contiguous leaves. -/
structure NoteEnvelope where
  note_id : Digest
  metadata : Digest
deriving DecidableEq, Repr

/-- An individually proven transaction, as consumed by the block producer. -/
structure ProvenTransaction where
  account_id : AccountId
  initial_account_hash : Digest
  final_account_hash : Digest
  input_notes : List Nullifier
  output_notes : List NoteEnvelope
deriving DecidableEq, Repr

/-- An ordered group of proven transactions (`TransactionBatch`). -/
structure TransactionBatch where
  txs : List ProvenTransaction
deriving DecidableEq, Repr

/-- Block header carrying the block's commitments. -/
structure BlockHeader where
  prev_hash : Digest
  block_num : Nat
  chain_root : Digest
  account_root : Digest
  nullifier_root : Digest
  note_root : Digest
  batch_root : Digest
  proof_hash : Digest
  version : Nat
  timestamp : Nat
deriving DecidableEq, Repr

-- CONSTANTS (from `block-producer/src/lib.rs`)
-- =================================================================================================

/-- Depth of the SMT for created notes inside one batch. -/
def CREATED_NOTES_SMT_DEPTH : Nat := 13

/-- Maximum number of created notes per batch: the created-notes tree uses an
extra depth to store the two components of a `NoteEnvelope`. -/
def MAX_NUM_CREATED_NOTES_PER_BATCH : Nat := 2 ^ (CREATED_NOTES_SMT_DEPTH - 1)

/-- The depth at which roots from the batches are inserted into the block-level tree. -/
def CREATED_NOTES_TREE_INSERTION_DEPTH : Nat := 8

/-- Total depth of the created-notes tree of a block (8 batch bits + 13 intra-batch bits). -/
def CREATED_NOTES_TREE_DEPTH : Nat :=
  CREATED_NOTES_TREE_INSERTION_DEPTH + CREATED_NOTES_SMT_DEPTH

-- ERROR TYPES (from `block-producer/src/errors.rs`)
-- =================================================================================================

/-- Errors returned when fetching transaction inputs from the store. -/
inductive TxInputsError where
  | GrpcClientError (msg : String)
  | MalformedResponse (msg : String)
  | ParseError
  | Dummy
deriving DecidableEq, Repr

/-- Errors of the state view's transaction verification. -/
inductive VerifyTxError where
  | AccountAlreadyModifiedByOtherTx (id : AccountId)
  | InputNotesAlreadyConsumed (nullifiers : List Nullifier)
  | IncorrectAccountInitialHash (tx_initial_account_hash : Digest)
      (store_account_hash : Option Digest)
  | StoreConnectionFailed (e : TxInputsError)
  | TransactionInputError
deriving DecidableEq, Repr

/-- Stand-in for the external `MerkleError` type carried by `NotesSmtError`. -/
structure MerkleErrorModel where
  tag : Nat
deriving DecidableEq, Repr

/-- Errors of batch building; both variants carry the original transactions. -/
inductive BuildBatchError where
  | TooManyNotesCreated (count : Nat) (txs : List ProvenTransaction)
  | NotesSmtError (err : MerkleErrorModel) (txs : List ProvenTransaction)
deriving DecidableEq, Repr

/-- Recover the original transactions from a batch-building error
(`BuildBatchError::into_transactions` in `errors.rs`). -/
def BuildBatchError.into_transactions : BuildBatchError → List ProvenTransaction
  | .TooManyNotesCreated _ txs => txs
  | .NotesSmtError _ txs => txs

/-- Errors of block building (`BuildBlockError` in `errors.rs`). -/
inductive BuildBlockError where
  | BlockProverFailed
  | ApplyBlockFailed
  | GetBlockInputsFailed
  | InconsistentAccountIds (ids : List AccountId)
  | InconsistentAccountStates (ids : List AccountId)
  | TooManyBatchesInBlock (n : Nat)
deriving DecidableEq, Repr

-- STORE CLIENT: `DefaultStore::get_tx_inputs` (from `block-producer/src/store/mod.rs`)
-- =================================================================================================

/-- Decoded per-account record of a `GetTransactionInputsResponse`
(`account_state` field); both sub-fields are optional on the wire. -/
structure AccountStateRecord where
  account_id : Option AccountId
  account_hash : Option Digest
deriving DecidableEq, Repr

/-- Decoded nullifier record of a `GetTransactionInputsResponse`:
`block_num` is nonzero if the nullifier is already consumed. -/
structure NullifierRecord where
  nullifier : Option Nullifier
  block_num : Nat
deriving DecidableEq, Repr

/-- Decoded store response to a `GetTransactionInputsRequest`. -/
structure GetTransactionInputsResponse where
  account_state : Option AccountStateRecord
  nullifiers : List NullifierRecord
deriving DecidableEq, Repr

/-- Information needed from the store to verify a transaction. -/
structure TxInputs where
  account_hash : Option Digest
  nullifiers : List (Nullifier × Bool)
deriving DecidableEq, Repr

/-- Nullifier extraction loop of `DefaultStore::get_tx_inputs`: each record must
hold a nullifier, which is paired with "already consumed" (`block_num != 0`). -/
def extractNullifiers : List NullifierRecord → Except TxInputsError (List (Nullifier × Bool))
  | [] => .ok []
  | r :: rest =>
    match r.nullifier with
    | none => .error (.MalformedResponse "nullifier record contains empty nullifier")
    | some n =>
      match extractNullifiers rest with
      | .error e => .error e
      | .ok tail => .ok ((n, r.block_num != 0) :: tail)

/-- Shallow embedding of `DefaultStore::get_tx_inputs` (store/mod.rs), applied to
the already-decoded store response: validates the account record against the
transaction, decodes the nullifier records, and normalizes an all-default
account hash to `none` (new account); a missing account hash is rejected. -/
def getTxInputs (proven_tx : ProvenTransaction) (response : GetTransactionInputsResponse) :
    Except TxInputsError TxInputs :=
  match response.account_state with
  | none => .error (.MalformedResponse "account_states empty")
  | some account_state =>
    match account_state.account_id with
    | none => .error (.MalformedResponse "empty account id")
    | some account_id_from_store =>
      if account_id_from_store ≠ proven_tx.account_id then
        .error (.MalformedResponse "incorrect account id returned from store")
      else
        match extractNullifiers response.nullifiers with
        | .error e => .error e
        | .ok nullifiers =>
          match account_state.account_hash with
          | some hash =>
            if hash = Digest.zero then
              .ok { account_hash := none, nullifiers := nullifiers }
            else
              .ok { account_hash := some hash, nullifiers := nullifiers }
          | none =>
            .error (.MalformedResponse "incorrect account hash returned from the store. Got None")

-- SORTING HELPER (ascending insertion sort over account ids)
-- =================================================================================================

/-- Insert a value into an ascending list, keeping it ascending. -/
def insertAsc (x : Nat) : List Nat → List Nat
  | [] => [x]
  | y :: rest => if x ≤ y then x :: y :: rest else y :: insertAsc x rest

/-- Ascending insertion sort for lists of account ids. -/
def sortNat (l : List Nat) : List Nat := l.foldr insertAsc []

-- STATE VIEW (in-flight conflict detection)
-- =================================================================================================

/-- The in-flight overlay state owned by the state view. -/
structure InFlightState where
  modified_accounts : List AccountId
  consumed_nullifiers : List Nullifier
deriving DecidableEq, Repr

/-- The fresh in-flight state of a newly constructed state view. -/
def emptyInFlight : InFlightState := ⟨[], []⟩

/-- Committed state of the durable store as seen through `get_tx_inputs`:
per-account committed hashes and the set of consumed nullifiers. -/
structure StoreState where
  accounts : List (AccountId × Digest)
  consumedNullifiers : List Nullifier
deriving DecidableEq, Repr

/-- Committed account hash the store reports for an account id
(`none` signals a never-seen account). -/
def getCommitted (s : StoreState) (id : AccountId) : Option Digest :=
  (s.accounts.find? (fun p => p.1 = id)).map (·.2)

/-- Modelled from the spec: the state view operation `verify_tx` (section 4.1)
is split below into `verifyTx` / `verifyTxAfterAccountCheck` /
`verifyTxStoreNullifiers`; its implementation file is not part of the source
tree.  The ordered checks are the spec's VT1/VT3/VT4/VT5 together with the
atomic commit, but the two in-flight checks run before the store-side checks
— the repository's own tests require this order (`test_verify_tx_vt4` expects
`AccountAlreadyModifiedByOtherTx` and `test_verify_tx_vt5` expects
`InputNotesAlreadyConsumed` for transactions whose initial hash also
disagrees with the store) — and the in-flight account check runs before the
in-flight nullifier check.  This function is the committed-nullifier check
(VT3) followed by the atomic in-flight commit: on success the transaction's
account id and consumed nullifiers are added to the in-flight state. -/
def verifyTxStoreNullifiers (s : StoreState) (st : InFlightState) (tx : ProvenTransaction) :
    Except VerifyTxError InFlightState :=
  match tx.input_notes.filter (fun n => decide (n ∈ s.consumedNullifiers)) with
  | off :: rest => .error (.InputNotesAlreadyConsumed (off :: rest))
  | [] =>
    .ok ⟨tx.account_id :: st.modified_accounts, tx.input_notes ++ st.consumed_nullifiers⟩

/-- Modelled from the spec: the remaining ordered checks of `verify_tx`: the
in-flight nullifier check (VT5), then the store fetch with the initial-hash
match (VT1), then `verifyTxStoreNullifiers` (VT3 and the commit). -/
def verifyTxAfterAccountCheck (s : StoreState) (st : InFlightState) (tx : ProvenTransaction) :
    Except VerifyTxError InFlightState :=
  match tx.input_notes.filter (fun n => decide (n ∈ st.consumed_nullifiers)) with
  | off :: rest => .error (.InputNotesAlreadyConsumed (off :: rest))
  | [] =>
    match getCommitted s tx.account_id with
    | some h =>
      if tx.initial_account_hash ≠ h then
        .error (.IncorrectAccountInitialHash tx.initial_account_hash (some h))
      else verifyTxStoreNullifiers s st tx
    | none => verifyTxStoreNullifiers s st tx

/-- Modelled from the spec: entry point of `verify_tx`, starting with the
in-flight account-modification check (VT4). -/
def verifyTx (s : StoreState) (st : InFlightState) (tx : ProvenTransaction) :
    Except VerifyTxError InFlightState :=
  if tx.account_id ∈ st.modified_accounts then
    .error (.AccountAlreadyModifiedByOtherTx tx.account_id)
  else verifyTxAfterAccountCheck s st tx

/-- Modelled from the spec: `drop_transactions` removes the transactions'
account ids and nullifiers from the in-flight sets. -/
def dropTransactions (st : InFlightState) (txs : List ProvenTransaction) : InFlightState :=
  ⟨st.modified_accounts.filter
      (fun id => decide (id ∉ txs.map (fun tx => tx.account_id))),
   st.consumed_nullifiers.filter
      (fun n => decide (n ∉ txs.flatMap (fun tx => tx.input_notes)))⟩

/-- Run a sequence of `verify_tx` calls against a fixed store, keeping the
in-flight state of each successful call and discarding failed calls. -/
def runVerify (s : StoreState) : List ProvenTransaction → InFlightState → InFlightState
  | [], st => st
  | tx :: rest, st =>
    match verifyTx s st tx with
    | .ok st' => runVerify s rest st'
    | .error _ => runVerify s rest st

-- BATCH BUILDER
-- =================================================================================================

/-- Total number of output notes across the transactions of a chunk. -/
def totalOutputNotes (txs : List ProvenTransaction) : Nat :=
  (txs.map (fun tx => tx.output_notes.length)).sum

/-- Modelled from the spec: `TransactionBatch::new` (section 4.3), whose
implementation file is not part of the source tree.  The chunk is rejected
with `TooManyNotesCreated(count, txs)` when the total number of output notes
exceeds `MAX_NUM_CREATED_NOTES_PER_BATCH`; the notes sub-tree construction
cannot fail in this embedding, so the `NotesSmtError` variant is never
produced here. -/
def TransactionBatch.new (txs : List ProvenTransaction) :
    Except BuildBatchError TransactionBatch :=
  if totalOutputNotes txs > MAX_NUM_CREATED_NOTES_PER_BATCH then
    .error (.TooManyNotesCreated (totalOutputNotes txs) txs)
  else
    .ok ⟨txs⟩

/-- Ordered output notes of a batch: transactions in submission order, each
transaction's notes in their declared order. -/
def batchNotes (batch : TransactionBatch) : List NoteEnvelope :=
  batch.txs.flatMap (fun tx => tx.output_notes)

-- BLOCK INPUTS AND BLOCK WITNESS
-- =================================================================================================

/-- Per-account record returned by `get_block_inputs`. -/
structure AccountInputRecord where
  account_id : AccountId
  account_hash : Digest
  proof : List Digest
deriving DecidableEq, Repr

/-- Store response to `get_block_inputs`: committed header, chain-MMR peaks
(as size-annotated peak digests), per-account records and nullifier records. -/
structure BlockInputs where
  block_header : BlockHeader
  chain_peaks : List (Nat × Digest)
  account_states : List AccountInputRecord
  nullifiers : List Nullifier
deriving DecidableEq, Repr

/-- Account ids reported by the store in `get_block_inputs`. -/
def storeIds (inputs : BlockInputs) : List AccountId :=
  inputs.account_states.map (fun r => r.account_id)

/-- Committed hash reported by the store for an account id. -/
def storeHash (inputs : BlockInputs) (id : AccountId) : Option Digest :=
  (inputs.account_states.find? (fun r => r.account_id = id)).map (fun r => r.account_hash)

/-- Transactions of all batches, in batch order. -/
def batchTxs (batches : List TransactionBatch) : List ProvenTransaction :=
  batches.flatMap (fun b => b.txs)

/-- Account ids modified by the batches (first-occurrence order, no duplicates). -/
def batchAccountIds (batches : List TransactionBatch) : List AccountId :=
  ((batchTxs batches).map (fun tx => tx.account_id)).dedup

/-- Initial hash the batches report for an account: the FIRST transaction
touching the account (spec, section 4.5). -/
def batchInitial (batches : List TransactionBatch) (id : AccountId) : Option Digest :=
  ((batchTxs batches).find? (fun tx => tx.account_id = id)).map
    (fun tx => tx.initial_account_hash)

/-- Final hash the batches report for an account: the LAST transaction
touching the account. -/
def batchFinal (batches : List TransactionBatch) (id : AccountId) : Option Digest :=
  (((batchTxs batches).filter (fun tx => decide (tx.account_id = id))).getLast?).map
    (fun tx => tx.final_account_hash)

/-- Per-account state transitions recorded by the witness, one entry per
modified account: (id, initial hash, final hash). -/
def accountStatesFromBatches (batches : List TransactionBatch) :
    List (AccountId × Digest × Digest) :=
  (batchAccountIds batches).filterMap (fun id =>
    match batchInitial batches id, batchFinal batches id with
    | some i, some f => some (id, i, f)
    | _, _ => none)

/-- A verified, self-consistent bundle of inputs to the block kernel. -/
structure BlockWitness where
  prevHeader : BlockHeader
  chainPeaks : List (Nat × Digest)
  updatedAccounts : List (AccountId × Digest × Digest)
  batches : List TransactionBatch
  nullifiers : List Nullifier
deriving DecidableEq, Repr

/-- Sorted symmetric difference of the store-side and batch-side account sets. -/
def accountIdsSymmDiff (inputs : BlockInputs) (batches : List TransactionBatch) :
    List AccountId :=
  sortNat
    (((storeIds inputs).filter (fun id => decide (id ∉ batchAccountIds batches)) ++
      (batchAccountIds batches).filter (fun id => decide (id ∉ storeIds inputs))).dedup)

/-- Accounts whose initial hash in the batches disagrees with the store. -/
def hashOffenders (inputs : BlockInputs) (batches : List TransactionBatch) :
    List AccountId :=
  sortNat ((batchAccountIds batches).filter
    (fun id => decide (batchInitial batches id ≠ storeHash inputs id)))

/-- Modelled from the spec: `BlockWitness::new` (section 4.5), whose
implementation file is not part of the source tree.  The account ids reported
by the store must equal, as a set, the ids modified by the batches —
otherwise the sorted symmetric difference is reported as
`InconsistentAccountIds` — and for every account the first initial hash from
the batches must equal the store's hash — otherwise the offending ids are
reported as `InconsistentAccountStates`. -/
def BlockWitness.new (inputs : BlockInputs) (batches : List TransactionBatch) :
    Except BuildBlockError BlockWitness :=
  if (∀ id ∈ storeIds inputs, id ∈ batchAccountIds batches) ∧
      (∀ id ∈ batchAccountIds batches, id ∈ storeIds inputs) then
    if hashOffenders inputs batches = [] then
      .ok ⟨inputs.block_header, inputs.chain_peaks, accountStatesFromBatches batches,
           batches, inputs.nullifiers⟩
    else
      .error (.InconsistentAccountStates (hashOffenders inputs batches))
  else
    .error (.InconsistentAccountIds (accountIdsSymmDiff inputs batches))

-- BLOCK PROVER
-- =================================================================================================

/-- The opaque cryptographic primitives the block kernel is built over: the
2-to-1 Merkle node hash, the empty-leaf value, the header hash, and the
abstract single-update transitions of the account and nullifier SMTs. -/
structure HashF where
  node : Digest → Digest → Digest
  emptyLeaf : Digest
  headerHash : BlockHeader → Digest
  accountUpd : Digest → AccountId → Digest → Digest → Digest
  nullifierUpd : Digest → Nullifier → Nat → Digest

/-- Root of the empty subtree of the given depth. -/
def emptyRoot (F : HashF) : Nat → Digest
  | 0 => F.emptyLeaf
  | d + 1 => F.node (emptyRoot F d) (emptyRoot F d)

/-- Root of the depth-`d` Merkle tree whose leaves are given sparsely by
index; unassigned leaves hold the empty-leaf value. -/
def smtRoot (F : HashF) : Nat → List (Nat × Digest) → Digest
  | 0, leaves => ((leaves.find? (fun p => p.1 = 0)).map (fun p => p.2)).getD F.emptyLeaf
  | d + 1, leaves =>
    F.node
      (smtRoot F d (leaves.filterMap
        (fun p => if p.1 < 2 ^ d then some p else none)))
      (smtRoot F d (leaves.filterMap
        (fun p => if p.1 ≥ 2 ^ d then some (p.1 - 2 ^ d, p.2) else none)))

/-- Leaves contributed by a list of note envelopes: the note at index `n`
(counted from `n0`) places its id at leaf `base + 2n` and its metadata at
leaf `base + 2n + 1`. -/
def envLeaves (base : Nat) : Nat → List NoteEnvelope → List (Nat × Digest)
  | _, [] => []
  | n, env :: rest =>
    (base + 2 * n, env.note_id) :: (base + 2 * n + 1, env.metadata) ::
      envLeaves base (n + 1) rest

/-- Leaves of the block-level created-notes tree contributed by the batches
starting at batch slot `b`. -/
def noteLeavesAux : Nat → List TransactionBatch → List (Nat × Digest)
  | _, [] => []
  | b, batch :: rest =>
    envLeaves (b * 2 ^ CREATED_NOTES_SMT_DEPTH) 0 (batchNotes batch) ++
      noteLeavesAux (b + 1) rest

/-- Leaves of the depth-21 created-notes tree of a block: batch `b`'s notes
occupy the subtree rooted at leaf offset `b * 2^13`. -/
def noteLeaves (batches : List TransactionBatch) : List (Nat × Digest) :=
  noteLeavesAux 0 batches

/-- Root of the depth-13 created-notes sub-tree of a single batch. -/
def batchRoot (F : HashF) (batch : TransactionBatch) : Digest :=
  smtRoot F CREATED_NOTES_SMT_DEPTH (envLeaves 0 0 (batchNotes batch))

/-- Merge a new peak into a Merkle Mountain Range, combining equal-size peaks
(peaks are kept smallest-first as (size, digest) pairs). -/
def mmrMergePeak (F : HashF) : List (Nat × Digest) → Nat × Digest → List (Nat × Digest)
  | [], p => [p]
  | (s, d) :: rest, (s', d') =>
    if s = s' then mmrMergePeak F rest (2 * s, F.node d d')
    else (s', d') :: (s, d) :: rest

/-- Append an element to the chain MMR. -/
def mmrAdd (F : HashF) (peaks : List (Nat × Digest)) (v : Digest) : List (Nat × Digest) :=
  mmrMergePeak F peaks (1, v)

/-- Commitment to the peaks of the chain MMR. -/
def peaksCommitment (F : HashF) (peaks : List (Nat × Digest)) : Digest :=
  (peaks.map (fun p => p.2)).foldl F.node F.emptyLeaf

/-- Modelled from the spec: `BlockProver::prove` (section 4.6), whose
implementation file is not part of the source tree.  The new header commits
to: the account SMT root after applying each account transition, the
nullifier SMT root after inserting each produced nullifier with the new block
number, the depth-21 created-notes tree, the chain MMR extended by the
previous header's hash, and the depth-8 tree over the batches' note roots. -/
def prove (F : HashF) (w : BlockWitness) : BlockHeader :=
  { prev_hash := F.headerHash w.prevHeader
    block_num := w.prevHeader.block_num + 1
    chain_root := peaksCommitment F (mmrAdd F w.chainPeaks (F.headerHash w.prevHeader))
    account_root :=
      w.updatedAccounts.foldl
        (fun r a => F.accountUpd r a.1 a.2.1 a.2.2) w.prevHeader.account_root
    nullifier_root :=
      w.nullifiers.foldl
        (fun r n => F.nullifierUpd r n (w.prevHeader.block_num + 1))
        w.prevHeader.nullifier_root
    note_root := smtRoot F CREATED_NOTES_TREE_DEPTH (noteLeaves w.batches)
    batch_root :=
      smtRoot F CREATED_NOTES_TREE_INSERTION_DEPTH
        (w.batches.enum.map (fun p => (p.1, batchRoot F p.2)))
    proof_hash := F.emptyLeaf
    version := w.prevHeader.version
    timestamp := w.prevHeader.timestamp + 1 }

/-- The block-building pipeline on fixed inputs: construct the witness, then
prove the header. -/
def buildBlock (F : HashF) (inputs : BlockInputs) (batches : List TransactionBatch) :
    Except BuildBlockError BlockHeader :=
  (BlockWitness.new inputs batches).map (prove F)

-- CONCRETE SAMPLE VALUES (used by the witness theorems)
-- =================================================================================================

/-- Sample digest standing for an account state hash. -/
def dA : Digest := ⟨1, 1, 1, 1⟩

/-- Sample digest standing for a successor account state hash. -/
def dB : Digest := ⟨2, 2, 2, 2⟩

/-- Sample digest standing for a third account state hash. -/
def dC : Digest := ⟨3, 3, 3, 3⟩

/-- Sample nullifier. -/
def nu0 : Nullifier := ⟨7, 0, 0, 0⟩

/-- Sample transaction on account 0 advancing `dA` to `dB` with no notes. -/
def sampleTxPlain : ProvenTransaction := ⟨0, dA, dB, [], []⟩

/-- Sample transaction on account 0 advancing `dA` to `dB`, consuming `nu0`. -/
def sampleTxConsume : ProvenTransaction := ⟨0, dA, dB, [nu0], []⟩

/-- Sample transaction on account 1 consuming `nu0`. -/
def sampleTxConsumeOther : ProvenTransaction := ⟨1, dB, dC, [nu0], []⟩

/-- Sample hash-function bundle with constant primitives, sufficient to
evaluate the prover on concrete witnesses. -/
def sampleHashF : HashF :=
  { node := fun _ _ => Digest.zero
    emptyLeaf := Digest.zero
    headerHash := fun _ => Digest.zero
    accountUpd := fun _ _ _ _ => Digest.zero
    nullifierUpd := fun _ _ _ => Digest.zero }

/-- Sample previous block header. -/
def sampleHeader : BlockHeader :=
  ⟨Digest.zero, 0, Digest.zero, dA, Digest.zero, Digest.zero, Digest.zero, Digest.zero, 0, 0⟩

/-- Sample block inputs reporting no accounts and no nullifiers. -/
def sampleEmptyInputs : BlockInputs := ⟨sampleHeader, [], [], []⟩

/-- Sample block inputs reporting account 0 at hash `dA`. -/
def sampleInputsOneAccount : BlockInputs := ⟨sampleHeader, [], [⟨0, dA, []⟩], []⟩

/-- Sample note envelopes. -/
def envA : NoteEnvelope := ⟨⟨11, 0, 0, 0⟩, ⟨12, 0, 0, 0⟩⟩

/-- Second sample note envelope. -/
def envB : NoteEnvelope := ⟨⟨21, 0, 0, 0⟩, ⟨22, 0, 0, 0⟩⟩

/-- Third sample note envelope. -/
def envC : NoteEnvelope := ⟨⟨31, 0, 0, 0⟩, ⟨32, 0, 0, 0⟩⟩

/-- Sample transaction producing exactly the note `envA`. -/
def sampleNoteTx0 : ProvenTransaction := ⟨0, Digest.zero, Digest.zero, [], [envA]⟩

/-- Sample transaction producing exactly the note `envB`. -/
def sampleNoteTx1 : ProvenTransaction := ⟨1, Digest.zero, Digest.zero, [], [envB]⟩

/-- Sample transaction producing exactly the note `envC`. -/
def sampleNoteTx2 : ProvenTransaction := ⟨2, Digest.zero, Digest.zero, [], [envC]⟩

/-- Sample transaction with 4097 output notes, one more than a batch admits. -/
def sampleOverfullTx : ProvenTransaction :=
  ⟨0, Digest.zero, Digest.zero, [], List.replicate 4097 envA⟩

/-- Sample block inputs reporting accounts 0 and 1 (mirrors the store side of
`test_block_witness_validation_inconsistent_account_ids`). -/
def sampleStoreTwoAccounts : BlockInputs :=
  ⟨sampleHeader, [], [⟨0, Digest.zero, []⟩, ⟨1, Digest.zero, []⟩], []⟩

/-- Sample batches touching accounts 1 and 42 (mirrors the batch side of
`test_block_witness_validation_inconsistent_account_ids`). -/
def sampleBatchesMismatch : List TransactionBatch :=
  [⟨[⟨1, Digest.zero, Digest.zero, [], []⟩]⟩, ⟨[⟨42, Digest.zero, Digest.zero, [], []⟩]⟩]

/-- Sample block inputs whose account 0 hash is `(1,2,3,4)` (mirrors
`test_block_witness_validation_inconsistent_account_hashes`). -/
def sampleStoreHashMismatch : BlockInputs :=
  ⟨sampleHeader, [], [⟨0, ⟨1, 2, 3, 4⟩, []⟩, ⟨1, Digest.zero, []⟩], []⟩

/-- Sample batches whose account 0 initial hash is `(4,3,2,1)` (mirrors
`test_block_witness_validation_inconsistent_account_hashes`). -/
def sampleBatchesHashMismatch : List TransactionBatch :=
  [⟨[⟨0, ⟨4, 3, 2, 1⟩, Digest.zero, [], []⟩]⟩, ⟨[⟨1, Digest.zero, Digest.zero, [], []⟩]⟩]

/-- Sample single batch carrying only `sampleTxPlain`. -/
def sampleBatchPlain : List TransactionBatch := [⟨[sampleTxPlain]⟩]

-- HELPER LEMMAS
-- =================================================================================================

theorem mem_insertAsc {x a : Nat} : ∀ {l : List Nat}, a ∈ insertAsc x l ↔ a = x ∨ a ∈ l := by
  intro l
  induction l with
  | nil => simp [insertAsc]
  | cons y rest ih =>
    by_cases h : x ≤ y
    · simp [insertAsc, h]
    · simp only [insertAsc, if_neg h, List.mem_cons, ih]
      tauto

theorem mem_sortNat {a : Nat} : ∀ {l : List Nat}, a ∈ sortNat l ↔ a ∈ l := by
  intro l
  induction l with
  | nil => simp [sortNat]
  | cons y rest ih =>
    simp only [sortNat, List.foldr] at ih ⊢
    rw [mem_insertAsc, ih, List.mem_cons]

theorem sorted_insertAsc {x : Nat} :
    ∀ {l : List Nat}, l.Sorted (· ≤ ·) → (insertAsc x l).Sorted (· ≤ ·) := by
  intro l
  induction l with
  | nil => intro _; simp [insertAsc]
  | cons y rest ih =>
    intro hs
    rw [List.sorted_cons] at hs
    by_cases h : x ≤ y
    · rw [insertAsc, if_pos h, List.sorted_cons]
      refine ⟨?_, List.sorted_cons.mpr hs⟩
      intro b hb
      rcases List.mem_cons.mp hb with rfl | hb
      · exact h
      · exact le_trans h (hs.1 b hb)
    · rw [insertAsc, if_neg h, List.sorted_cons]
      refine ⟨?_, ih hs.2⟩
      intro b hb
      rcases mem_insertAsc.mp hb with rfl | hb
      · omega
      · exact hs.1 b hb

theorem sorted_sortNat : ∀ (l : List Nat), (sortNat l).Sorted (· ≤ ·) := by
  intro l
  induction l with
  | nil => simp [sortNat]
  | cons y rest ih => exact sorted_insertAsc ih

theorem sortNat_eq_nil {l : List Nat} : sortNat l = [] ↔ l = [] := by
  cases l with
  | nil => simp [sortNat]
  | cons y rest =>
    constructor
    · intro h
      have hy : y ∈ sortNat (y :: rest) := mem_sortNat.mpr (List.mem_cons_self y rest)
      rw [h] at hy
      exact absurd hy (List.not_mem_nil y)
    · intro h
      exact absurd h (List.cons_ne_nil y rest)

theorem extractNullifiers_cases (l : List NullifierRecord) :
    (∃ v, extractNullifiers l = .ok v) ∨
      extractNullifiers l =
        .error (.MalformedResponse "nullifier record contains empty nullifier") := by
  induction l with
  | nil => exact Or.inl ⟨[], rfl⟩
  | cons r rest ih =>
    cases hr : r.nullifier with
    | none => exact Or.inr (by simp [extractNullifiers, hr])
    | some n =>
      rcases ih with ⟨v, hv⟩ | he
      · exact Or.inl ⟨(n, r.block_num != 0) :: v, by simp [extractNullifiers, hr, hv]⟩
      · exact Or.inr (by simp [extractNullifiers, hr, he])

-- CLAIM THEOREMS AND WITNESSES
-- =================================================================================================

/-- C10: `get_tx_inputs` never builds a `TxInputs` from another account's
record: a response with no account state, with no account id, or with an
account id different from the transaction's is rejected with
`MalformedResponse`, and every successful call used a record bearing exactly
the transaction's account id. -/
theorem claim_C10_get_tx_inputs_account_guard
    (tx : ProvenTransaction) (r : GetTransactionInputsResponse) :
    (r.account_state = none →
      getTxInputs tx r = .error (.MalformedResponse "account_states empty")) ∧
    (∀ st, r.account_state = some st → st.account_id = none →
      getTxInputs tx r = .error (.MalformedResponse "empty account id")) ∧
    (∀ st i, r.account_state = some st → st.account_id = some i → i ≠ tx.account_id →
      getTxInputs tx r =
        .error (.MalformedResponse "incorrect account id returned from store")) ∧
    (∀ ti, getTxInputs tx r = .ok ti →
      ∃ st, r.account_state = some st ∧ st.account_id = some tx.account_id) := by
  refine ⟨?_, ?_, ?_, ?_⟩
  · intro h
    simp [getTxInputs, h]
  · intro st hst hid
    simp [getTxInputs, hst, hid]
  · intro st i hst hid hne
    simp [getTxInputs, hst, hid, hne]
  · intro ti hok
    cases hst : r.account_state with
    | none => simp [getTxInputs, hst] at hok
    | some st =>
      cases hid : st.account_id with
      | none => simp [getTxInputs, hst, hid] at hok
      | some i =>
        refine ⟨st, rfl, ?_⟩
        rw [hid]
        by_cases hi : i = tx.account_id
        · exact congrArg some hi
        · simp [getTxInputs, hst, hid, hi] at hok

/-- Witness for C10 at concrete inputs: all three malformed responses are
rejected, and a successful call pins the account id. -/
theorem claim_C10_witness :
    getTxInputs sampleTxPlain ⟨none, []⟩ =
      .error (.MalformedResponse "account_states empty") ∧
    getTxInputs sampleTxPlain ⟨some ⟨none, some dA⟩, []⟩ =
      .error (.MalformedResponse "empty account id") ∧
    getTxInputs sampleTxPlain ⟨some ⟨some 6, some dA⟩, []⟩ =
      .error (.MalformedResponse "incorrect account id returned from store") ∧
    (∃ st, (⟨some ⟨some 0, some dA⟩, []⟩ : GetTransactionInputsResponse).account_state = some st ∧
      st.account_id = some sampleTxPlain.account_id) :=
  ⟨(claim_C10_get_tx_inputs_account_guard sampleTxPlain ⟨none, []⟩).1 rfl,
   (claim_C10_get_tx_inputs_account_guard sampleTxPlain ⟨some ⟨none, some dA⟩, []⟩).2.1
     ⟨none, some dA⟩ rfl rfl,
   (claim_C10_get_tx_inputs_account_guard sampleTxPlain ⟨some ⟨some 6, some dA⟩, []⟩).2.2.1
     ⟨some 6, some dA⟩ 6 rfl rfl (by decide),
   (claim_C10_get_tx_inputs_account_guard sampleTxPlain ⟨some ⟨some 0, some dA⟩, []⟩).2.2.2
     ⟨some dA, []⟩ (by decide)⟩

/-- C7: on every successful `get_tx_inputs` call the returned account hash is
`none` exactly when the transport reported the all-default digest, and is
returned unchanged otherwise; a response whose account-hash field is missing
entirely is rejected with a `MalformedResponse` error instead of being
treated as a new account. -/
theorem claim_C7_account_hash_normalization
    (tx : ProvenTransaction) (r : GetTransactionInputsResponse) :
    (∀ ti, getTxInputs tx r = .ok ti →
      ∃ st, r.account_state = some st ∧
        ((st.account_hash = some Digest.zero ∧ ti.account_hash = none) ∨
          (∃ h, st.account_hash = some h ∧ h ≠ Digest.zero ∧ ti.account_hash = some h))) ∧
    (∀ st, r.account_state = some st → st.account_hash = none →
      ∃ m, getTxInputs tx r = .error (.MalformedResponse m)) := by
  constructor
  · intro ti hok
    cases hst : r.account_state with
    | none => simp [getTxInputs, hst] at hok
    | some st =>
      refine ⟨st, rfl, ?_⟩
      cases hid : st.account_id with
      | none => simp [getTxInputs, hst, hid] at hok
      | some i =>
        by_cases hi : i = tx.account_id
        · rcases extractNullifiers_cases r.nullifiers with ⟨v, hv⟩ | he
          · cases hh : st.account_hash with
            | none => simp [getTxInputs, hst, hid, hi, hv, hh] at hok
            | some h =>
              by_cases hz : h = Digest.zero
              · subst hz
                refine Or.inl ⟨rfl, ?_⟩
                simp [getTxInputs, hst, hid, hi, hv, hh] at hok
                rw [← hok]
              · refine Or.inr ⟨h, rfl, hz, ?_⟩
                simp [getTxInputs, hst, hid, hi, hv, hh, hz] at hok
                rw [← hok]
          · simp [getTxInputs, hst, hid, hi, he] at hok
        · simp [getTxInputs, hst, hid, hi] at hok
  · intro st hst hh
    cases hid : st.account_id with
    | none => exact ⟨"empty account id", by simp [getTxInputs, hst, hid]⟩
    | some i =>
      by_cases hi : i = tx.account_id
      · rcases extractNullifiers_cases r.nullifiers with ⟨v, hv⟩ | he
        · exact ⟨"incorrect account hash returned from the store. Got None",
            by simp [getTxInputs, hst, hid, hi, hv, hh]⟩
        · exact ⟨"nullifier record contains empty nullifier",
            by simp [getTxInputs, hst, hid, hi, he]⟩
      · exact ⟨"incorrect account id returned from store",
          by simp [getTxInputs, hst, hid, hi]⟩

/-- Witness for C7 at concrete inputs: the all-default hash is normalized to
`none`, a nonzero hash passes through unchanged, and a missing hash field is
a malformed response. -/
theorem claim_C7_witness :
    (∃ st, (⟨some ⟨some 0, some Digest.zero⟩, []⟩ : GetTransactionInputsResponse).account_state =
        some st ∧
      ((st.account_hash = some Digest.zero ∧
          (⟨none, []⟩ : TxInputs).account_hash = none) ∨
        (∃ h, st.account_hash = some h ∧ h ≠ Digest.zero ∧
          (⟨none, []⟩ : TxInputs).account_hash = some h))) ∧
    (∃ st, (⟨some ⟨some 0, some dA⟩, []⟩ : GetTransactionInputsResponse).account_state =
        some st ∧
      ((st.account_hash = some Digest.zero ∧
          (⟨some dA, []⟩ : TxInputs).account_hash = none) ∨
        (∃ h, st.account_hash = some h ∧ h ≠ Digest.zero ∧
          (⟨some dA, []⟩ : TxInputs).account_hash = some h))) ∧
    (∃ m, getTxInputs sampleTxPlain ⟨some ⟨some 0, none⟩, []⟩ =
      .error (.MalformedResponse m)) :=
  ⟨(claim_C7_account_hash_normalization sampleTxPlain ⟨some ⟨some 0, some Digest.zero⟩, []⟩).1
      ⟨none, []⟩ (by decide),
   (claim_C7_account_hash_normalization sampleTxPlain ⟨some ⟨some 0, some dA⟩, []⟩).1
      ⟨some dA, []⟩ (by decide),
   (claim_C7_account_hash_normalization sampleTxPlain ⟨some ⟨some 0, none⟩, []⟩).2
      ⟨some 0, none⟩ rfl rfl⟩

/-- C8: a chunk whose total output-note count exceeds
`MAX_NUM_CREATED_NOTES_PER_BATCH` (which equals `2^(CREATED_NOTES_SMT_DEPTH - 1)`
= 4096) is rejected with `TooManyNotesCreated` carrying that count and the
original transactions, and both `BuildBatchError` variants return exactly the
original transactions through `into_transactions`. -/
theorem claim_C8_batch_note_limit :
    MAX_NUM_CREATED_NOTES_PER_BATCH = 4096 ∧
    MAX_NUM_CREATED_NOTES_PER_BATCH = 2 ^ (CREATED_NOTES_SMT_DEPTH - 1) ∧
    (∀ txs, totalOutputNotes txs > MAX_NUM_CREATED_NOTES_PER_BATCH →
      TransactionBatch.new txs = .error (.TooManyNotesCreated (totalOutputNotes txs) txs)) ∧
    (∀ c txs, (BuildBatchError.TooManyNotesCreated c txs).into_transactions = txs) ∧
    (∀ e txs, (BuildBatchError.NotesSmtError e txs).into_transactions = txs) := by
  refine ⟨by decide, rfl, ?_, fun c txs => rfl, fun e txs => rfl⟩
  intro txs hgt
  rw [TransactionBatch.new, if_pos hgt]

/-- Witness for C8: a single transaction carrying 4097 output notes is
rejected with `TooManyNotesCreated 4097`. -/
theorem claim_C8_witness :
    TransactionBatch.new [sampleOverfullTx] =
      .error (.TooManyNotesCreated (totalOutputNotes [sampleOverfullTx]) [sampleOverfullTx]) :=
  claim_C8_batch_note_limit.2.2.1 [sampleOverfullTx] (by
    have hlen : sampleOverfullTx.output_notes.length = 4097 := List.length_replicate 4097 envA
    have h : totalOutputNotes [sampleOverfullTx] = 4097 := by
      unfold totalOutputNotes
      rw [List.map_cons, List.map_nil, List.sum_cons, List.sum_nil, hlen]
      rfl
    rw [h]
    decide)

/-- C9: the composition of witness construction and proving is a pure
function of the store inputs and the batches: two invocations on the same
inputs return the same header, in particular the same account, nullifier,
note, chain and batch roots. -/
theorem claim_C9_commitment_determinism
    (F : HashF) (inputs : BlockInputs) (batches : List TransactionBatch)
    (h1 h2 : BlockHeader)
    (e1 : buildBlock F inputs batches = .ok h1)
    (e2 : buildBlock F inputs batches = .ok h2) :
    h1 = h2 ∧ h1.account_root = h2.account_root ∧ h1.nullifier_root = h2.nullifier_root ∧
      h1.note_root = h2.note_root ∧ h1.chain_root = h2.chain_root ∧
      h1.batch_root = h2.batch_root := by
  rw [e1] at e2
  have h : h1 = h2 := by injection e2
  exact ⟨h, by rw [h], by rw [h], by rw [h], by rw [h], by rw [h]⟩

/-- Witness for C9: the pipeline on empty sample inputs yields the same
header twice. -/
theorem claim_C9_witness :
    prove sampleHashF ⟨sampleHeader, [], [], [], []⟩ =
      prove sampleHashF ⟨sampleHeader, [], [], [], []⟩ ∧
    (prove sampleHashF ⟨sampleHeader, [], [], [], []⟩).account_root =
      (prove sampleHashF ⟨sampleHeader, [], [], [], []⟩).account_root :=
  ⟨(claim_C9_commitment_determinism sampleHashF sampleEmptyInputs []
      (prove sampleHashF ⟨sampleHeader, [], [], [], []⟩)
      (prove sampleHashF ⟨sampleHeader, [], [], [], []⟩) rfl rfl).1,
   (claim_C9_commitment_determinism sampleHashF sampleEmptyInputs []
      (prove sampleHashF ⟨sampleHeader, [], [], [], []⟩)
      (prove sampleHashF ⟨sampleHeader, [], [], [], []⟩) rfl rfl).2.1⟩

theorem verifyTxStoreNullifiers_ok_inv {s : StoreState} {st : InFlightState}
    {tx : ProvenTransaction} {st' : InFlightState}
    (h : verifyTxStoreNullifiers s st tx = .ok st') :
    st' = ⟨tx.account_id :: st.modified_accounts,
           tx.input_notes ++ st.consumed_nullifiers⟩ := by
  unfold verifyTxStoreNullifiers at h
  cases hf : tx.input_notes.filter (fun n => decide (n ∈ s.consumedNullifiers)) with
  | cons a l => simp [hf] at h
  | nil =>
    simp only [hf] at h
    injection h with h
    exact h.symm

theorem verifyTxStoreNullifiers_not_incorrect (s : StoreState) (st : InFlightState)
    (tx : ProvenTransaction) (a : Digest) (b : Option Digest) :
    verifyTxStoreNullifiers s st tx ≠ .error (.IncorrectAccountInitialHash a b) := by
  unfold verifyTxStoreNullifiers
  cases hf : tx.input_notes.filter (fun n => decide (n ∈ s.consumedNullifiers)) <;> simp

theorem verifyTx_ok_inv {s : StoreState} {st : InFlightState} {tx : ProvenTransaction}
    {st' : InFlightState} (h : verifyTx s st tx = .ok st') :
    st' = ⟨tx.account_id :: st.modified_accounts,
           tx.input_notes ++ st.consumed_nullifiers⟩ ∧
    tx.account_id ∉ st.modified_accounts := by
  unfold verifyTx at h
  by_cases hm : tx.account_id ∈ st.modified_accounts
  · rw [if_pos hm] at h
    exact absurd h (by simp)
  · rw [if_neg hm] at h
    refine ⟨?_, hm⟩
    unfold verifyTxAfterAccountCheck at h
    cases hf : tx.input_notes.filter (fun n => decide (n ∈ st.consumed_nullifiers)) with
    | cons a l => simp [hf] at h
    | nil =>
      simp only [hf] at h
      cases hc : getCommitted s tx.account_id with
      | some hsh =>
        simp only [hc] at h
        by_cases hne : tx.initial_account_hash ≠ hsh
        · rw [if_pos hne] at h
          exact absurd h (by simp)
        · rw [if_neg hne] at h
          exact verifyTxStoreNullifiers_ok_inv h
      | none =>
        simp only [hc] at h
        exact verifyTxStoreNullifiers_ok_inv h

/-- C2: with a fresh state view, when the store reports a committed hash for
the transaction's account, `verify_tx` fails with
`IncorrectAccountInitialHash` (carrying the transaction's and the store's
hashes) exactly when the transaction's initial hash differs from it; when the
store reports no committed hash, the initial-hash check passes for every
initial hash and `verify_tx` succeeds once the remaining checks pass. -/
theorem claim_C2_initial_hash_check (s : StoreState) (tx : ProvenTransaction) :
    (∀ h, getCommitted s tx.account_id = some h →
      (verifyTx s emptyInFlight tx =
          .error (.IncorrectAccountInitialHash tx.initial_account_hash (some h)) ↔
        tx.initial_account_hash ≠ h)) ∧
    (getCommitted s tx.account_id = none →
      tx.input_notes.filter (fun n => decide (n ∈ s.consumedNullifiers)) = [] →
      ∃ st', verifyTx s emptyInFlight tx = .ok st') := by
  have hred : verifyTx s emptyInFlight tx = verifyTxAfterAccountCheck s emptyInFlight tx := by
    unfold verifyTx
    rw [if_neg (by simp [emptyInFlight])]
  have hfilter :
      tx.input_notes.filter (fun n => decide (n ∈ emptyInFlight.consumed_nullifiers)) = [] := by
    simp [emptyInFlight]
  constructor
  · intro h hc
    constructor
    · intro herr heq
      rw [hred] at herr
      unfold verifyTxAfterAccountCheck at herr
      simp only [hfilter, hc] at herr
      rw [if_neg (by simp [heq])] at herr
      exact verifyTxStoreNullifiers_not_incorrect s emptyInFlight tx _ _ herr
    · intro hne
      rw [hred]
      unfold verifyTxAfterAccountCheck
      simp only [hfilter, hc]
      rw [if_pos hne]
  · intro hc hsf
    rw [hred]
    unfold verifyTxAfterAccountCheck
    simp only [hfilter, hc]
    unfold verifyTxStoreNullifiers
    simp only [hsf]
    exact ⟨_, rfl⟩

/-- Witness for C2 at concrete inputs: a store holding account 0 at `dA`
rejects an initial hash `dB` with `IncorrectAccountInitialHash`, and a store
that has never seen the account accepts the transaction. -/
theorem claim_C2_witness :
    (verifyTx ⟨[(0, dA)], []⟩ emptyInFlight ⟨0, dB, dC, [], []⟩ =
        .error (.IncorrectAccountInitialHash dB (some dA)) ↔ dB ≠ dA) ∧
    (∃ st', verifyTx ⟨[], []⟩ emptyInFlight sampleTxConsume = .ok st') :=
  ⟨(claim_C2_initial_hash_check ⟨[(0, dA)], []⟩ ⟨0, dB, dC, [], []⟩).1 dA (by decide),
   (claim_C2_initial_hash_check ⟨[], []⟩ sampleTxConsume).2 (by decide) (by decide)⟩

/-- C4: no account id is ever carried by two in-flight transactions at once —
the in-flight account list stays duplicate-free under any sequence of
`verify_tx` calls — and while an account is in flight any further transaction
on it fails with `AccountAlreadyModifiedByOtherTx`, until the transaction's
entries are dropped by `drop_transactions`. -/
theorem claim_C4_account_exclusivity :
    (∀ (s : StoreState) (txs : List ProvenTransaction) (st₀ : InFlightState),
      st₀.modified_accounts.Nodup → ((runVerify s txs st₀).modified_accounts).Nodup) ∧
    (∀ (s : StoreState) (st : InFlightState) (tx : ProvenTransaction),
      tx.account_id ∈ st.modified_accounts →
      verifyTx s st tx = .error (.AccountAlreadyModifiedByOtherTx tx.account_id)) ∧
    (∀ (st : InFlightState) (txA : ProvenTransaction) (txs : List ProvenTransaction),
      txA ∈ txs → txA.account_id ∉ (dropTransactions st txs).modified_accounts) := by
  refine ⟨?_, ?_, ?_⟩
  · intro s txs
    induction txs with
    | nil => intro st₀ hn; exact hn
    | cons tx rest ih =>
      intro st₀ hn
      unfold runVerify
      cases hv : verifyTx s st₀ tx with
      | ok st' =>
        rcases verifyTx_ok_inv hv with ⟨rfl, hnm⟩
        exact ih _ (List.nodup_cons.mpr ⟨hnm, hn⟩)
      | error e => exact ih _ hn
  · intro s st tx hm
    unfold verifyTx
    rw [if_pos hm]
  · intro st txA txs hmem
    simp only [dropTransactions, List.mem_filter, decide_eq_true_iff]
    intro hcontra
    exact hcontra.2 (List.mem_map_of_mem (fun tx => tx.account_id) hmem)

/-- Witness for C4: a successful transaction on account 0 puts account 0 in
flight, a second transaction on account 0 is rejected, and dropping the first
transaction removes the account from the in-flight set. -/
theorem claim_C4_witness :
    (runVerify ⟨[(0, dA)], []⟩ [sampleTxPlain] emptyInFlight).modified_accounts.Nodup ∧
    verifyTx ⟨[(0, dA)], []⟩ ⟨[0], []⟩ ⟨0, dB, dC, [], []⟩ =
      .error (.AccountAlreadyModifiedByOtherTx 0) ∧
    sampleTxPlain.account_id ∉
      (dropTransactions ⟨[0], []⟩ [sampleTxPlain]).modified_accounts :=
  ⟨claim_C4_account_exclusivity.1 ⟨[(0, dA)], []⟩ [sampleTxPlain] emptyInFlight (by decide),
   claim_C4_account_exclusivity.2.1 ⟨[(0, dA)], []⟩ ⟨[0], []⟩ ⟨0, dB, dC, [], []⟩ (by decide),
   claim_C4_account_exclusivity.2.2 ⟨[0], []⟩ sampleTxPlain [sampleTxPlain]
     (List.mem_cons_self sampleTxPlain [])⟩

/-- Counterexample for C3 as stated: with store `[(0, dA)]` whose consumed
nullifiers contain `nu0`, a first transaction on account 0 verifies, and a
second transaction on account 0 that passes the initial-hash check and
consumes the store-consumed `nu0` fails with
`AccountAlreadyModifiedByOtherTx 0` — not with `InputNotesAlreadyConsumed` as
the claim requires, because the in-flight account check runs first. -/
theorem claim_C3_counterexample :
    verifyTx ⟨[(0, dA)], [nu0]⟩ emptyInFlight sampleTxPlain = .ok ⟨[0], []⟩ ∧
    getCommitted ⟨[(0, dA)], [nu0]⟩ 0 = some dA ∧
    (⟨0, dA, dC, [nu0], []⟩ : ProvenTransaction).initial_account_hash = dA ∧
    nu0 ∈ (⟨[(0, dA)], [nu0]⟩ : StoreState).consumedNullifiers ∧
    verifyTx ⟨[(0, dA)], [nu0]⟩ ⟨[0], []⟩ ⟨0, dA, dC, [nu0], []⟩ =
      .error (.AccountAlreadyModifiedByOtherTx 0) ∧
    ¬ ∃ l, verifyTx ⟨[(0, dA)], [nu0]⟩ ⟨[0], []⟩ ⟨0, dA, dC, [nu0], []⟩ =
      .error (.InputNotesAlreadyConsumed l) := by
  refine ⟨by decide, by decide, rfl, by decide, by decide, ?_⟩
  rintro ⟨l, hl⟩
  rw [show verifyTx ⟨[(0, dA)], [nu0]⟩ ⟨[0], []⟩ ⟨0, dA, dC, [nu0], []⟩ =
    .error (.AccountAlreadyModifiedByOtherTx 0) from by decide] at hl
  exact absurd hl (by simp)

/-- C3 (amended): for every transaction whose account is NOT already modified
by an in-flight transaction and that passes the initial-hash check,
`verify_tx` fails with `InputNotesAlreadyConsumed` listing the offending
nullifiers when a consumed nullifier is in the in-flight set or marked
consumed in the store (the in-flight list takes precedence); in particular,
after tx A consuming `ν` verifies successfully from a fresh state view, any
tx B on a DIFFERENT account that also consumes `ν` fails with
`InputNotesAlreadyConsumed [ν]`. -/
theorem claim_C3_nullifier_check_amended :
    (∀ (s : StoreState) (st : InFlightState) (tx : ProvenTransaction) (off : Nullifier)
        (rest : List Nullifier),
      tx.account_id ∉ st.modified_accounts →
      tx.input_notes.filter (fun n => decide (n ∈ st.consumed_nullifiers)) = off :: rest →
      verifyTx s st tx = .error (.InputNotesAlreadyConsumed (off :: rest))) ∧
    (∀ (s : StoreState) (st : InFlightState) (tx : ProvenTransaction) (off : Nullifier)
        (rest : List Nullifier),
      tx.account_id ∉ st.modified_accounts →
      tx.input_notes.filter (fun n => decide (n ∈ st.consumed_nullifiers)) = [] →
      (∀ h, getCommitted s tx.account_id = some h → tx.initial_account_hash = h) →
      tx.input_notes.filter (fun n => decide (n ∈ s.consumedNullifiers)) = off :: rest →
      verifyTx s st tx = .error (.InputNotesAlreadyConsumed (off :: rest))) ∧
    (∀ (s : StoreState) (txA txB : ProvenTransaction) (nuv : Nullifier) (st₁ : InFlightState),
      verifyTx s emptyInFlight txA = .ok st₁ →
      nuv ∈ txA.input_notes → txB.input_notes = [nuv] → txB.account_id ≠ txA.account_id →
      verifyTx s st₁ txB = .error (.InputNotesAlreadyConsumed [nuv])) := by
  have part1 : ∀ (s : StoreState) (st : InFlightState) (tx : ProvenTransaction)
      (off : Nullifier) (rest : List Nullifier),
      tx.account_id ∉ st.modified_accounts →
      tx.input_notes.filter (fun n => decide (n ∈ st.consumed_nullifiers)) = off :: rest →
      verifyTx s st tx = .error (.InputNotesAlreadyConsumed (off :: rest)) := by
    intro s st tx off rest hm hf
    unfold verifyTx
    rw [if_neg hm]
    unfold verifyTxAfterAccountCheck
    simp only [hf]
  refine ⟨part1, ?_, ?_⟩
  · intro s st tx off rest hm hf hhash hsf
    unfold verifyTx
    rw [if_neg hm]
    unfold verifyTxAfterAccountCheck
    simp only [hf]
    cases hc : getCommitted s tx.account_id with
    | some h =>
      dsimp only
      rw [if_neg (by simp [hhash h hc])]
      unfold verifyTxStoreNullifiers
      simp only [hsf]
    | none =>
      dsimp only
      unfold verifyTxStoreNullifiers
      simp only [hsf]
  · intro s txA txB nuv st₁ hok hnu hBnotes hBacc
    rcases verifyTx_ok_inv hok with ⟨h1, _⟩
    subst h1
    apply part1
    · simp only [emptyInFlight, List.mem_cons]
      rintro (h | h)
      · exact hBacc h
      · exact absurd h (List.not_mem_nil _)
    · rw [hBnotes]
      simp [emptyInFlight, hnu]

/-- Witness for the amended C3 at concrete inputs: after account 0 consumes
`nu0`, a transaction on account 1 consuming `nu0` fails with
`InputNotesAlreadyConsumed [nu0]`. -/
theorem claim_C3_witness :
    verifyTx ⟨[(0, dA), (1, dA)], []⟩ ⟨[0], [nu0]⟩ sampleTxConsumeOther =
      .error (.InputNotesAlreadyConsumed [nu0]) :=
  claim_C3_nullifier_check_amended.2.2 ⟨[(0, dA), (1, dA)], []⟩ sampleTxConsume
    sampleTxConsumeOther nu0 ⟨[0], [nu0]⟩ (by decide) (by decide) rfl (by decide)

/-- C1: `BlockWitness::new` succeeds exactly when the store-side and
batch-side account sets coincide and every paired initial hash matches; when
the sets differ it fails with `InconsistentAccountIds` carrying the sorted
symmetric difference, and when only some paired hash differs it fails with
`InconsistentAccountStates` listing exactly the offending account ids. -/
theorem claim_C1_block_witness_validation
    (inputs : BlockInputs) (batches : List TransactionBatch) :
    ((∃ w, BlockWitness.new inputs batches = .ok w) ↔
      ((∀ id, id ∈ storeIds inputs ↔ id ∈ batchAccountIds batches) ∧
        ∀ id ∈ batchAccountIds batches, batchInitial batches id = storeHash inputs id)) ∧
    (¬ (∀ id, id ∈ storeIds inputs ↔ id ∈ batchAccountIds batches) →
      BlockWitness.new inputs batches =
        .error (.InconsistentAccountIds (accountIdsSymmDiff inputs batches)) ∧
      (accountIdsSymmDiff inputs batches).Sorted (· ≤ ·) ∧
      (∀ id, id ∈ accountIdsSymmDiff inputs batches ↔
        ((id ∈ storeIds inputs ∧ id ∉ batchAccountIds batches) ∨
          (id ∈ batchAccountIds batches ∧ id ∉ storeIds inputs)))) ∧
    ((∀ id, id ∈ storeIds inputs ↔ id ∈ batchAccountIds batches) →
      hashOffenders inputs batches ≠ [] →
      BlockWitness.new inputs batches =
        .error (.InconsistentAccountStates (hashOffenders inputs batches)) ∧
      ∀ id, id ∈ hashOffenders inputs batches ↔
        (id ∈ batchAccountIds batches ∧ batchInitial batches id ≠ storeHash inputs id)) := by
  have hcond_iff : ((∀ id ∈ storeIds inputs, id ∈ batchAccountIds batches) ∧
      (∀ id ∈ batchAccountIds batches, id ∈ storeIds inputs)) ↔
      (∀ id, id ∈ storeIds inputs ↔ id ∈ batchAccountIds batches) := by
    constructor
    · rintro ⟨h1, h2⟩ id
      exact ⟨h1 id, h2 id⟩
    · intro h
      exact ⟨fun id hid => (h id).mp hid, fun id hid => (h id).mpr hid⟩
  have hoff_iff : hashOffenders inputs batches = [] ↔
      ∀ id ∈ batchAccountIds batches, batchInitial batches id = storeHash inputs id := by
    rw [hashOffenders, sortNat_eq_nil, List.filter_eq_nil_iff]
    constructor
    · intro h id hid
      have hh := h id hid
      rw [decide_eq_true_iff, not_not] at hh
      exact hh
    · intro h id hid
      rw [decide_eq_true_iff, not_not]
      exact h id hid
  by_cases hcond : (∀ id ∈ storeIds inputs, id ∈ batchAccountIds batches) ∧
      (∀ id ∈ batchAccountIds batches, id ∈ storeIds inputs)
  · by_cases hoff : hashOffenders inputs batches = []
    · have hnew : BlockWitness.new inputs batches =
          .ok ⟨inputs.block_header, inputs.chain_peaks,
            accountStatesFromBatches batches, batches, inputs.nullifiers⟩ := by
        unfold BlockWitness.new
        rw [if_pos hcond, if_pos hoff]
      refine ⟨?_, ?_, ?_⟩
      · constructor
        · intro _
          exact ⟨hcond_iff.mp hcond, hoff_iff.mp hoff⟩
        · intro _
          exact ⟨_, hnew⟩
      · intro hne
        exact absurd (hcond_iff.mp hcond) hne
      · intro _ hoffne
        exact absurd hoff hoffne
    · have hnew : BlockWitness.new inputs batches =
          .error (.InconsistentAccountStates (hashOffenders inputs batches)) := by
        unfold BlockWitness.new
        rw [if_pos hcond, if_neg hoff]
      refine ⟨?_, ?_, ?_⟩
      · constructor
        · rintro ⟨w, hw⟩
          rw [hnew] at hw
          exact absurd hw (by simp)
        · rintro ⟨_, hh⟩
          exact absurd (hoff_iff.mpr hh) hoff
      · intro hne
        exact absurd (hcond_iff.mp hcond) hne
      · intro _ _
        refine ⟨hnew, ?_⟩
        intro id
        rw [hashOffenders, mem_sortNat, List.mem_filter, decide_eq_true_iff]
  · have hnew : BlockWitness.new inputs batches =
        .error (.InconsistentAccountIds (accountIdsSymmDiff inputs batches)) := by
      unfold BlockWitness.new
      rw [if_neg hcond]
    have hmemne : ¬ (∀ id, id ∈ storeIds inputs ↔ id ∈ batchAccountIds batches) :=
      fun h => hcond (hcond_iff.mpr h)
    refine ⟨?_, ?_, ?_⟩
    · constructor
      · rintro ⟨w, hw⟩
        rw [hnew] at hw
        exact absurd hw (by simp)
      · rintro ⟨hmem, _⟩
        exact absurd hmem hmemne
    · intro _
      refine ⟨hnew, sorted_sortNat _, ?_⟩
      intro id
      rw [accountIdsSymmDiff, mem_sortNat, List.mem_dedup, List.mem_append]
      simp only [List.mem_filter, decide_eq_true_iff]
    · intro hmem _
      exact absurd hmem hmemne

/-- Witness for C1 at the repository's own test scenarios: store accounts
`(0,1)` against batch accounts `(1,42)` give the sorted symmetric difference
`[0, 42]`; equal account sets with a disagreeing hash for account 0 give the
offender list `[0]`; and a matching store/batch pair succeeds. -/
theorem claim_C1_witness :
    (BlockWitness.new sampleStoreTwoAccounts sampleBatchesMismatch =
        .error (.InconsistentAccountIds
          (accountIdsSymmDiff sampleStoreTwoAccounts sampleBatchesMismatch)) ∧
      accountIdsSymmDiff sampleStoreTwoAccounts sampleBatchesMismatch = [0, 42]) ∧
    (BlockWitness.new sampleStoreHashMismatch sampleBatchesHashMismatch =
        .error (.InconsistentAccountStates
          (hashOffenders sampleStoreHashMismatch sampleBatchesHashMismatch)) ∧
      hashOffenders sampleStoreHashMismatch sampleBatchesHashMismatch = [0]) ∧
    (∃ w, BlockWitness.new sampleInputsOneAccount sampleBatchPlain = .ok w) := by
  refine ⟨⟨?_, by decide⟩, ⟨?_, by decide⟩, ?_⟩
  · exact ((claim_C1_block_witness_validation sampleStoreTwoAccounts sampleBatchesMismatch).2.1
      (fun h => absurd ((h 42).mpr (by decide)) (by decide))).1
  · exact ((claim_C1_block_witness_validation sampleStoreHashMismatch
      sampleBatchesHashMismatch).2.2
      (fun id => Iff.rfl) (by decide)).1
  · exact (claim_C1_block_witness_validation sampleInputsOneAccount sampleBatchPlain).1.mpr
      ⟨fun id => Iff.rfl, by decide⟩

theorem BlockWitness.new_ok_inv {inputs : BlockInputs} {batches : List TransactionBatch}
    {w : BlockWitness} (h : BlockWitness.new inputs batches = .ok w) :
    w = ⟨inputs.block_header, inputs.chain_peaks, accountStatesFromBatches batches,
         batches, inputs.nullifiers⟩ := by
  unfold BlockWitness.new at h
  by_cases hcond : (∀ id ∈ storeIds inputs, id ∈ batchAccountIds batches) ∧
      (∀ id ∈ batchAccountIds batches, id ∈ storeIds inputs)
  · rw [if_pos hcond] at h
    by_cases hoff : hashOffenders inputs batches = []
    · rw [if_pos hoff] at h
      injection h with h
      exact h.symm
    · rw [if_neg hoff] at h
      exact absurd h (by simp)
  · rw [if_neg hcond] at h
    exact absurd h (by simp)

theorem smtRoot_nil (F : HashF) (d : Nat) : smtRoot F d [] = emptyRoot F d := by
  induction d with
  | zero => rfl
  | succ d ih =>
    rw [smtRoot, emptyRoot]
    simp only [List.filterMap_nil, ih]

/-- C5: over a witness built from empty batches the prover returns the
empty-subtree root at depth 21 as the created-notes root and leaves the
store's account SMT root unchanged. -/
theorem claim_C5_empty_batches (F : HashF) (inputs : BlockInputs) (w : BlockWitness)
    (h : BlockWitness.new inputs [] = .ok w) :
    (prove F w).note_root = emptyRoot F CREATED_NOTES_TREE_DEPTH ∧
    (prove F w).account_root = inputs.block_header.account_root := by
  have hw := BlockWitness.new_ok_inv h
  subst hw
  constructor
  · show smtRoot F CREATED_NOTES_TREE_DEPTH (noteLeaves []) = emptyRoot F CREATED_NOTES_TREE_DEPTH
    exact smtRoot_nil F CREATED_NOTES_TREE_DEPTH
  · rfl

/-- Witness for C5 at concrete inputs: empty sample inputs and no batches. -/
theorem claim_C5_witness :
    (prove sampleHashF ⟨sampleHeader, [], [], [], []⟩).note_root =
      emptyRoot sampleHashF CREATED_NOTES_TREE_DEPTH ∧
    (prove sampleHashF ⟨sampleHeader, [], [], [], []⟩).account_root =
      sampleEmptyInputs.block_header.account_root :=
  claim_C5_empty_batches sampleHashF sampleEmptyInputs ⟨sampleHeader, [], [], [], []⟩ (by decide)

theorem mul_pow_lor_eq (k : Nat) : ∀ (a b : Nat), b < 2 ^ k → a * 2 ^ k ||| b = a * 2 ^ k + b := by
  induction k with
  | zero =>
    intro a b hb
    interval_cases b
    simp
  | succ k ih =>
    intro a b hb
    have hsplit : b = 2 * (b / 2) + b % 2 := by omega
    have hb2 : b / 2 < 2 ^ k := by
      have hp : 2 ^ (k + 1) = 2 * 2 ^ k := by ring
      omega
    have hm : a * 2 ^ (k + 1) = 2 * (a * 2 ^ k) := by ring
    rcases Nat.mod_two_eq_zero_or_one b with h2 | h2
    · calc a * 2 ^ (k + 1) ||| b = 2 * (a * 2 ^ k) ||| (2 * (b / 2)) := by
            rw [hm]
            congr 1
            omega
        _ = 2 * ((a * 2 ^ k) ||| (b / 2)) := by
            have hbit := Nat.lor_bit false (a * 2 ^ k) false (b / 2)
            simpa [Nat.bit] using hbit
        _ = 2 * (a * 2 ^ k + b / 2) := by rw [ih _ _ hb2]
        _ = a * 2 ^ (k + 1) + b := by rw [hm]; omega
    · calc a * 2 ^ (k + 1) ||| b = 2 * (a * 2 ^ k) ||| (2 * (b / 2) + 1) := by
            rw [hm]
            congr 1
            omega
        _ = 2 * ((a * 2 ^ k) ||| (b / 2)) + 1 := by
            have hbit := Nat.lor_bit false (a * 2 ^ k) true (b / 2)
            simpa [Nat.bit] using hbit
        _ = 2 * (a * 2 ^ k + b / 2) + 1 := by rw [ih _ _ hb2]
        _ = a * 2 ^ (k + 1) + b := by rw [hm]; omega

theorem mem_envLeaves {base : Nat} :
    ∀ (l : List NoteEnvelope) (n0 i : Nat) (v : Digest),
      ((i, v) ∈ envLeaves base n0 l ↔
        ∃ k env, l.get? k = some env ∧
          (i = base + 2 * n0 + 2 * k ∧ v = env.note_id ∨
            i = base + 2 * n0 + 2 * k + 1 ∧ v = env.metadata)) := by
  intro l
  induction l with
  | nil =>
    intro n0 i v
    simp [envLeaves]
  | cons env0 rest ih =>
    intro n0 i v
    rw [envLeaves]
    constructor
    · intro hmem
      rcases List.mem_cons.mp hmem with h | hmem2
      · rw [Prod.mk.injEq] at h
        exact ⟨0, env0, rfl, Or.inl ⟨by omega, h.2⟩⟩
      · rcases List.mem_cons.mp hmem2 with h | hmem3
        · rw [Prod.mk.injEq] at h
          exact ⟨0, env0, rfl, Or.inr ⟨by omega, h.2⟩⟩
        · rcases (ih (n0 + 1) i v).mp hmem3 with ⟨k, env, hk, hor⟩
          refine ⟨k + 1, env, by rw [List.get?_cons_succ]; exact hk, ?_⟩
          rcases hor with ⟨hi, hv⟩ | ⟨hi, hv⟩
          · exact Or.inl ⟨by omega, hv⟩
          · exact Or.inr ⟨by omega, hv⟩
    · rintro ⟨k, env, hk, hor⟩
      cases k with
      | zero =>
        rw [List.get?_cons_zero] at hk
        injection hk with hk
        subst hk
        rcases hor with ⟨hi, hv⟩ | ⟨hi, hv⟩
        · subst hv
          rw [show i = base + 2 * n0 from by omega]
          exact List.mem_cons_self _ _
        · subst hv
          rw [show i = base + 2 * n0 + 1 from by omega]
          exact List.mem_cons_of_mem _ (List.mem_cons_self _ _)
      | succ k =>
        rw [List.get?_cons_succ] at hk
        have hmem3 := (ih (n0 + 1) i v).mpr ⟨k, env, hk, by
          rcases hor with ⟨hi, hv⟩ | ⟨hi, hv⟩
          · exact Or.inl ⟨by omega, hv⟩
          · exact Or.inr ⟨by omega, hv⟩⟩
        exact List.mem_cons_of_mem _ (List.mem_cons_of_mem _ hmem3)

theorem get?_lt_length {α : Type} {l : List α} {k : Nat} {a : α}
    (hk : l.get? k = some a) : k < l.length := by
  by_contra hge
  rw [List.get?_eq_none.mpr (by omega)] at hk
  cases hk

theorem envLeaves_fst_lower {base n0 i : Nat} {v : Digest} {l : List NoteEnvelope}
    (h : (i, v) ∈ envLeaves base n0 l) : base + 2 * n0 ≤ i := by
  rcases (mem_envLeaves l n0 i v).mp h with ⟨k, env, _, hor⟩
  rcases hor with ⟨hi, _⟩ | ⟨hi, _⟩ <;> omega

theorem envLeaves_fst_upper {base n0 i : Nat} {v : Digest} {l : List NoteEnvelope}
    (h : (i, v) ∈ envLeaves base n0 l) : i < base + 2 * (n0 + l.length) := by
  rcases (mem_envLeaves l n0 i v).mp h with ⟨k, env, hk, hor⟩
  have hlt := get?_lt_length hk
  rcases hor with ⟨hi, _⟩ | ⟨hi, _⟩ <;> omega

theorem mem_noteLeavesAux :
    ∀ (batches : List TransactionBatch) (b0 i : Nat) (v : Digest),
      ((i, v) ∈ noteLeavesAux b0 batches ↔
        ∃ j batch n env, batches.get? j = some batch ∧
          (batchNotes batch).get? n = some env ∧
          (i = (b0 + j) * 2 ^ CREATED_NOTES_SMT_DEPTH + 2 * n ∧ v = env.note_id ∨
            i = (b0 + j) * 2 ^ CREATED_NOTES_SMT_DEPTH + 2 * n + 1 ∧ v = env.metadata)) := by
  intro batches
  induction batches with
  | nil =>
    intro b0 i v
    simp [noteLeavesAux]
  | cons batch0 rest ih =>
    intro b0 i v
    rw [noteLeavesAux, List.mem_append]
    constructor
    · rintro (hin | hin)
      · rcases (mem_envLeaves _ 0 i v).mp hin with ⟨k, env, hk, hor⟩
        refine ⟨0, batch0, k, env, rfl, hk, ?_⟩
        rcases hor with ⟨hi, hv⟩ | ⟨hi, hv⟩
        · exact Or.inl ⟨by rw [hi]; ring, hv⟩
        · exact Or.inr ⟨by rw [hi]; ring, hv⟩
      · rcases (ih (b0 + 1) i v).mp hin with ⟨j, batch, n, env, hj, hn, hor⟩
        refine ⟨j + 1, batch, n, env, by rw [List.get?_cons_succ]; exact hj, hn, ?_⟩
        rcases hor with ⟨hi, hv⟩ | ⟨hi, hv⟩
        · exact Or.inl ⟨by rw [hi]; ring_nf, hv⟩
        · exact Or.inr ⟨by rw [hi]; ring_nf, hv⟩
    · rintro ⟨j, batch, n, env, hj, hn, hor⟩
      cases j with
      | zero =>
        rw [List.get?_cons_zero] at hj
        injection hj with hj
        subst hj
        refine Or.inl ((mem_envLeaves _ 0 i v).mpr ⟨n, env, hn, ?_⟩)
        rcases hor with ⟨hi, hv⟩ | ⟨hi, hv⟩
        · exact Or.inl ⟨by rw [hi]; ring, hv⟩
        · exact Or.inr ⟨by rw [hi]; ring, hv⟩
      | succ j =>
        rw [List.get?_cons_succ] at hj
        refine Or.inr ((ih (b0 + 1) i v).mpr ⟨j, batch, n, env, hj, hn, ?_⟩)
        rcases hor with ⟨hi, hv⟩ | ⟨hi, hv⟩
        · exact Or.inl ⟨by rw [hi]; ring_nf, hv⟩
        · exact Or.inr ⟨by rw [hi]; ring_nf, hv⟩

theorem noteLeavesAux_fst_lower :
    ∀ {batches : List TransactionBatch} {b0 i : Nat} {v : Digest},
      (i, v) ∈ noteLeavesAux b0 batches → b0 * 2 ^ CREATED_NOTES_SMT_DEPTH ≤ i := by
  intro batches
  induction batches with
  | nil =>
    intro b0 i v h
    simp [noteLeavesAux] at h
  | cons batch0 rest ih =>
    intro b0 i v h
    rw [noteLeavesAux, List.mem_append] at h
    rcases h with h | h
    · have := envLeaves_fst_lower h
      omega
    · have h1 := ih h
      have h2 : b0 * 2 ^ CREATED_NOTES_SMT_DEPTH ≤ (b0 + 1) * 2 ^ CREATED_NOTES_SMT_DEPTH :=
        Nat.mul_le_mul_right _ (by omega)
      omega

theorem nodup_envLeaves_keys (base : Nat) :
    ∀ (l : List NoteEnvelope) (n0 : Nat), ((envLeaves base n0 l).map Prod.fst).Nodup := by
  intro l
  induction l with
  | nil =>
    intro n0
    simp [envLeaves]
  | cons env rest ih =>
    intro n0
    rw [envLeaves]
    simp only [List.map_cons]
    rw [List.nodup_cons, List.nodup_cons]
    refine ⟨?_, ?_, ih (n0 + 1)⟩
    · intro hmem
      rcases List.mem_cons.mp hmem with h | h
      · omega
      · rcases List.mem_map.mp h with ⟨p, hp, hfst⟩
        have hlow : base + 2 * (n0 + 1) ≤ p.1 := envLeaves_fst_lower (by
          rw [show p = (p.1, p.2) from rfl] at hp
          exact hp)
        omega
    · intro hmem
      rcases List.mem_map.mp hmem with ⟨p, hp, hfst⟩
      have hlow : base + 2 * (n0 + 1) ≤ p.1 := envLeaves_fst_lower (by
        rw [show p = (p.1, p.2) from rfl] at hp
        exact hp)
      omega

theorem nodup_noteLeavesAux_keys :
    ∀ (batches : List TransactionBatch) (b0 : Nat),
      (∀ batch ∈ batches,
        (batchNotes batch).length ≤ MAX_NUM_CREATED_NOTES_PER_BATCH) →
      ((noteLeavesAux b0 batches).map Prod.fst).Nodup := by
  intro batches
  induction batches with
  | nil =>
    intro b0 _
    simp [noteLeavesAux]
  | cons batch0 rest ih =>
    intro b0 hvalid
    rw [noteLeavesAux, List.map_append, List.nodup_append]
    refine ⟨nodup_envLeaves_keys _ _ _,
      ih (b0 + 1) (fun b hb => hvalid b (List.mem_cons_of_mem _ hb)), ?_⟩
    intro x hx hx'
    rcases List.mem_map.mp hx with ⟨p, hp, hfst⟩
    rcases List.mem_map.mp hx' with ⟨q, hq, hfst'⟩
    have hup : p.1 < b0 * 2 ^ CREATED_NOTES_SMT_DEPTH + 2 * (0 + (batchNotes batch0).length) :=
      envLeaves_fst_upper (by
        rw [show p = (p.1, p.2) from rfl] at hp
        exact hp)
    have hlen : (batchNotes batch0).length ≤ MAX_NUM_CREATED_NOTES_PER_BATCH :=
      hvalid batch0 (List.mem_cons_self _ _)
    have hlow : (b0 + 1) * 2 ^ CREATED_NOTES_SMT_DEPTH ≤ q.1 :=
      noteLeavesAux_fst_lower (by
        rw [show q = (q.1, q.2) from rfl] at hq
        exact hq)
    have hmax : MAX_NUM_CREATED_NOTES_PER_BATCH = 4096 := by decide
    have hpow : 2 ^ CREATED_NOTES_SMT_DEPTH = 8192 := by decide
    rw [hpow] at hup hlow
    rw [hmax] at hlen
    omega

theorem note_index_lor (j n : Nat) (hn : 2 * n + 1 < 2 ^ 13) :
    j <<< 13 ||| (2 * n) = j * 2 ^ 13 + 2 * n ∧
    j <<< 13 ||| (2 * n + 1) = j * 2 ^ 13 + 2 * n + 1 := by
  rw [Nat.shiftLeft_eq]
  refine ⟨mul_pow_lor_eq 13 j (2 * n) (by omega), ?_⟩
  rw [mul_pow_lor_eq 13 j (2 * n + 1) hn]
  exact (Nat.add_assoc (j * 2 ^ 13) (2 * n) 1).symm

/-- C6: in the depth-21 created-notes tree, the `n`-th output note of batch
`b` occupies exactly the two contiguous leaves `(b <<< 13) ||| 2n` (note id)
and `(b <<< 13) ||| (2n + 1)` (metadata), all leaf indices are distinct (every
other leaf keeps the empty-subtree value), and for two batches with 2 notes
and 1 note the occupied leaves are exactly 0,1,2,3 and 8192,8193, the note
root being the root of the tree built from exactly those leaves. -/
theorem claim_C6_notes_tree_placement :
    (∀ (batches : List TransactionBatch),
      (∀ batch ∈ batches, (batchNotes batch).length ≤ MAX_NUM_CREATED_NOTES_PER_BATCH) →
      (∀ (i : Nat) (v : Digest), ((i, v) ∈ noteLeaves batches ↔
        ∃ b batch n env, batches.get? b = some batch ∧
          (batchNotes batch).get? n = some env ∧
          (i = b <<< 13 ||| (2 * n) ∧ v = env.note_id ∨
            i = b <<< 13 ||| (2 * n + 1) ∧ v = env.metadata))) ∧
      ((noteLeaves batches).map Prod.fst).Nodup) ∧
    (∀ (t0 t1 t2 : ProvenTransaction) (e0 e1 e2 : NoteEnvelope),
      t0.output_notes = [e0] → t1.output_notes = [e1] → t2.output_notes = [e2] →
      noteLeaves [⟨[t0, t1]⟩, ⟨[t2]⟩] =
        [(0, e0.note_id), (1, e0.metadata), (2, e1.note_id), (3, e1.metadata),
          (8192, e2.note_id), (8193, e2.metadata)] ∧
      ∀ (F : HashF) (w : BlockWitness), w.batches = [⟨[t0, t1]⟩, ⟨[t2]⟩] →
        (prove F w).note_root = smtRoot F CREATED_NOTES_TREE_DEPTH
          [(0, e0.note_id), (1, e0.metadata), (2, e1.note_id), (3, e1.metadata),
            (8192, e2.note_id), (8193, e2.metadata)]) := by
  have hpow : (2 : Nat) ^ 13 = 8192 := by norm_num
  constructor
  · intro batches hvalid
    constructor
    · intro i v
      rw [noteLeaves, mem_noteLeavesAux]
      constructor
      · rintro ⟨j, batch, n, env, hj, hn, hor⟩
        have hlen := hvalid batch (List.get?_mem hj)
        have hnlt : n < (batchNotes batch).length := get?_lt_length hn
        have hmax : MAX_NUM_CREATED_NOTES_PER_BATCH = 4096 := by decide
        have hb : 2 * n + 1 < 2 ^ 13 := by omega
        have hidx := note_index_lor j n hb
        refine ⟨j, batch, n, env, hj, hn, ?_⟩
        rcases hor with ⟨hi, hv⟩ | ⟨hi, hv⟩
        · refine Or.inl ⟨?_, hv⟩
          rw [hidx.1, hi]
          simp only [Nat.zero_add]
          rfl
        · refine Or.inr ⟨?_, hv⟩
          rw [hidx.2, hi]
          simp only [Nat.zero_add]
          rfl
      · rintro ⟨j, batch, n, env, hj, hn, hor⟩
        have hlen := hvalid batch (List.get?_mem hj)
        have hnlt : n < (batchNotes batch).length := get?_lt_length hn
        have hmax : MAX_NUM_CREATED_NOTES_PER_BATCH = 4096 := by decide
        have hb : 2 * n + 1 < 2 ^ 13 := by omega
        have hidx := note_index_lor j n hb
        refine ⟨j, batch, n, env, hj, hn, ?_⟩
        rcases hor with ⟨hi, hv⟩ | ⟨hi, hv⟩
        · refine Or.inl ⟨?_, hv⟩
          rw [hi, hidx.1]
          simp only [Nat.zero_add]
          rfl
        · refine Or.inr ⟨?_, hv⟩
          rw [hi, hidx.2]
          simp only [Nat.zero_add]
          rfl
    · exact nodup_noteLeavesAux_keys batches 0 hvalid
  · intro t0 t1 t2 e0 e1 e2 h0 h1 h2
    have hlist : noteLeaves [⟨[t0, t1]⟩, ⟨[t2]⟩] =
        [(0, e0.note_id), (1, e0.metadata), (2, e1.note_id), (3, e1.metadata),
          (8192, e2.note_id), (8193, e2.metadata)] := by
      norm_num [noteLeaves, noteLeavesAux, batchNotes, envLeaves, h0, h1, h2,
        CREATED_NOTES_SMT_DEPTH]
    refine ⟨hlist, ?_⟩
    intro F w hwb
    show smtRoot F CREATED_NOTES_TREE_DEPTH (noteLeaves w.batches) = _
    rw [hwb, hlist]

/-- Witness for C6 at concrete inputs: three sample notes over two batches
land on leaves 0..3 and 8192..8193 with pairwise-distinct indices. -/
theorem claim_C6_witness :
    noteLeaves [⟨[sampleNoteTx0, sampleNoteTx1]⟩, ⟨[sampleNoteTx2]⟩] =
      [(0, envA.note_id), (1, envA.metadata), (2, envB.note_id), (3, envB.metadata),
        (8192, envC.note_id), (8193, envC.metadata)] ∧
    ((noteLeaves [⟨[sampleNoteTx0, sampleNoteTx1]⟩, ⟨[sampleNoteTx2]⟩]).map Prod.fst).Nodup :=
  ⟨(claim_C6_notes_tree_placement.2 sampleNoteTx0 sampleNoteTx1 sampleNoteTx2
      envA envB envC rfl rfl rfl).1,
   (claim_C6_notes_tree_placement.1 [⟨[sampleNoteTx0, sampleNoteTx1]⟩, ⟨[sampleNoteTx2]⟩]
      (by decide)).2⟩

end MidenNode
